import Mathlib

/-
Verification of the `vita` causal reasoning engine against its design
specification.

This file shallowly embeds the Python modules
`backend/app/services/causal/{dag,glucose_classifier,metabolic_debt,
digital_debt,guardrails,agent}.py` into Lean 4.  Python floats are
modelled as exact rationals (ℚ), dictionaries as association lists with
first-match lookup, mutation as explicit state passing, and fallible
operations (Python `TypeError` on comparing a string with a number) as
`Except`.  The theorems at the end settle the frozen claims C1..C10.
-/

set_option maxRecDepth 4000

namespace Vita


/-! ## Causal DAG (`dag.py`) -/


/-- Causal graph node types, in the fixed topological order. -/
inductive NodeType where
  | meal
  | environmental
  | behavioral
  | glucose
  | physiological
  | symptom
deriving DecidableEq, Repr


/-- Edge type labels (`EdgeType` enum in `dag.py`). -/
inductive EdgeType where
  | meal_to_glucose
  | glucose_to_hrv
  | glucose_to_energy
  | behavior_to_hrv
  | meal_to_sleep
  | behavior_to_sleep
  | environment_to_hrv
  | environment_to_sleep
  | environment_to_digestion
  | behavior_to_meal
  | temporal
  | causal
deriving DecidableEq, Repr


/-- `TOPOLOGICAL_ORDER` — earlier indices can cause later indices. -/
def TOPOLOGICAL_ORDER : List NodeType :=
  [.meal, .environmental, .behavioral, .glucose, .physiological, .symptom]


/-- `FORBIDDEN_EDGES` — hard-constraint (source, target) pairs. -/
def FORBIDDEN_EDGES : List (NodeType × NodeType) :=
  [(.behavioral, .glucose), (.symptom, .meal), (.environmental, .behavioral)]


/-- `_PREFIX_MAP` — node ID prefix to node type, in insertion order. -/
def PREFIX_MAP : List (String × NodeType) :=
  [("meal_", .meal), ("environment_", .environmental),
   ("behavioral_", .behavioral), ("glucose_", .glucose),
   ("physio_", .physiological), ("symptom_", .symptom)]


/-- Python `node_id.startswith(pre)` on the character lists of the two
strings (equivalent to `String.startsWith`, but reducible by the
kernel). -/
def pyStartsWith (node_id pre : String) : Bool :=
  pre.data.isPrefixOf node_id.data


/-- `node_type_from_id` — first prefix of `_PREFIX_MAP` matching the id. -/
def node_type_from_id (node_id : String) : Option NodeType :=
  (PREFIX_MAP.find? (fun p => pyStartsWith node_id p.1)).map (·.2)


/-- A directed edge of the causal DAG (`DAGEdge` dataclass). -/
structure DAGEdge where
  source : String
  target : String
  edge_type : EdgeType
  weight : ℚ := 1/2
deriving DecidableEq, Repr


/-- The DAG's adjacency map: node id to list of outgoing edges,
in dict insertion order. -/
structure CausalDAG where
  adjacency : List (String × List DAGEdge)
deriving DecidableEq, Repr


/-- The empty DAG (`CausalDAG.__init__`). -/
def CausalDAG.empty : CausalDAG := ⟨[]⟩


/-- `self._adjacency.get(node_id, [])`. -/
def CausalDAG.neighbors (g : CausalDAG) (node_id : String) : List DAGEdge :=
  ((g.adjacency.find? (fun p => p.1 = node_id)).map (·.2)).getD []


/-- `self._adjacency.setdefault(edge.source, []).append(edge)` on the
underlying association list. -/
def adjAppend (adj : List (String × List DAGEdge)) (key : String)
    (e : DAGEdge) : List (String × List DAGEdge) :=
  match adj with
  | [] => [(key, [e])]
  | (k, es) :: rest =>
      if k = key then (k, es ++ [e]) :: rest
      else (k, es) :: adjAppend rest key e


/-- `add_edge` — pure version: returns the Python boolean result paired
with the updated DAG (the Python method mutates `self`). -/
def CausalDAG.add_edge (g : CausalDAG) (e : DAGEdge) : Bool × CausalDAG :=
  match node_type_from_id e.source, node_type_from_id e.target with
  | none, _ => (false, g)
  | _, none => (false, g)
  | some src_type, some tgt_type =>
      if (src_type, tgt_type) ∈ FORBIDDEN_EDGES then (false, g)
      else if TOPOLOGICAL_ORDER.indexOf src_type >
              TOPOLOGICAL_ORDER.indexOf tgt_type then (false, g)
      else (true, ⟨adjAppend g.adjacency e.source e⟩)


/-- `all_edges` — concatenation of the adjacency values. -/
def CausalDAG.all_edges (g : CausalDAG) : List DAGEdge :=
  g.adjacency.flatMap (·.2)


/-- `_dfs` — the recursive depth-first search of `dag.py`.  The Python
recursion is bounded because each call grows `path` by one and returns
once `len(path) > max_depth`; the extra `fuel` argument makes that bound
structural.  `trace_paths` supplies `fuel = max_depth + 1`: whenever
`fuel = 0` is reached from there, `path.length > max_depth` already
holds, so the `fuel = 0` branch coincides with the length guard and the
embedding agrees with the Python recursion on the API path. -/
def dfs (g : CausalDAG) (target : String) :
    Nat → String → List DAGEdge → List String → Nat → List (List DAGEdge)
  | fuel, current, path, visited, max_depth =>
    if path.length > max_depth then []
    else if current = target then
      if path.isEmpty then [] else [path]
    else
      match fuel with
      | 0 => []
      | fuel' + 1 =>
          (g.neighbors current).flatMap (fun e =>
            if e.target ∈ current :: visited then []
            else dfs g target fuel' e.target (path ++ [e])
                   (current :: visited) max_depth)


/-- `trace_paths(source, target, max_depth)`. -/
def CausalDAG.trace_paths (g : CausalDAG) (source target : String)
    (max_depth : Nat := 6) : List (List DAGEdge) :=
  dfs g target (max_depth + 1) source [] [] max_depth


/-- `path_strength` — product of edge weights. -/
def CausalDAG.path_strength (_g : CausalDAG) (path : List DAGEdge) : ℚ :=
  path.foldl (fun s e => s * e.weight) 1


/-! ## Glucose classifier (`glucose_classifier.py`) -/


/-- `GlucoseTrend` enum. -/
inductive GlucoseTrend where
  | rapidly_rising
  | rising
  | stable
  | falling
  | rapidly_falling
deriving DecidableEq, Repr


/-- `EnergyState` enum. -/
inductive EnergyState where
  | stable
  | rising
  | crashing
  | reactive_low
deriving DecidableEq, Repr


/-- `classify_trend(rate_mg_per_min)`. -/
def classify_trend (rate_mg_per_min : ℚ) : GlucoseTrend :=
  if rate_mg_per_min > 3 then .rapidly_rising
  else if rate_mg_per_min ≥ 1 then .rising
  else if rate_mg_per_min > -1 then .stable
  else if rate_mg_per_min ≥ -3 then .falling
  else .rapidly_falling


/-- `classify_energy_state(current_mg_dl, delta_from_peak, baseline_mg_dl)`. -/
def classify_energy_state (current_mg_dl delta_from_peak : ℚ)
    (baseline_mg_dl : ℚ := 90) : EnergyState :=
  if current_mg_dl < baseline_mg_dl - 10 ∧ delta_from_peak < -30 then
    .reactive_low
  else if delta_from_peak < -30 then .crashing
  else if current_mg_dl > 140 ∨ delta_from_peak > 20 then .rising
  else .stable


/-! ## Metabolic debt scorer (`metabolic_debt.py`) -/


/-- `MealDebtInput` dataclass. -/
structure MealDebtInput where
  glycemic_load : ℚ
  peak_glucose : ℚ
  nadir_glucose : ℚ
  post_meal_hrv_avg : ℚ
  baseline_hrv_avg : ℚ
  bioavailability_modifier : Option ℚ
  meal_hour : ℤ
deriving DecidableEq, Repr


/-- `compute_meal_debt(meal)` — raw (unscaled) debt for one meal. -/
def compute_meal_debt (meal : MealDebtInput) : ℚ :=
  let gl_factor := min (meal.glycemic_load / 50) 1
  let spike := meal.peak_glucose - meal.nadir_glucose
  let spike_magnitude := if spike > 0 then min (spike / 80) 1 else 0
  let hrv_drop :=
    if meal.baseline_hrv_avg > 0 then
      max ((meal.baseline_hrv_avg - meal.post_meal_hrv_avg) /
            meal.baseline_hrv_avg) 0
    else 0
  let cooking_modifier :=
    match meal.bioavailability_modifier with
    | some bio => if bio > 1 then (8 : ℚ)/10 else 12/10
    | none => 1
  let timing_penalty : ℚ := if meal.meal_hour ≥ 20 then 13/10 else 1
  (gl_factor * (3/10) + spike_magnitude * (3/10) + hrv_drop * (1/4)
    + (cooking_modifier - 8/10) * (3/20)) * timing_penalty


/-- `compute_metabolic_debt(meals)` — aggregate score clamped to [0, 100]. -/
def compute_metabolic_debt (meals : List MealDebtInput) : ℚ :=
  if meals.isEmpty then 0
  else
    let total := (meals.map compute_meal_debt).sum
    let score := total / (max meals.length 1 : ℚ) * 100
    max 0 (min score 100)


/-! ## Digital debt scorer (`digital_debt.py`) -/


/-- `ScreenEvent` dataclass. -/
structure ScreenEvent where
  start_ms : ℤ
  duration_seconds : ℚ
  dopamine_debt_score : ℚ := 0
deriving DecidableEq, Repr


/-- `GlucoseCrash` dataclass. -/
structure GlucoseCrash where
  timestamp_ms : ℤ
deriving DecidableEq, Repr


/-- `REACTIVE_WINDOW_MS` — 30 minutes in milliseconds. -/
def REACTIVE_WINDOW_MS : ℤ := 30 * 60 * 1000


/-- `_is_reactive(event, crashes)`. -/
def is_reactive (event : ScreenEvent) (crashes : List GlucoseCrash) : Bool :=
  crashes.any (fun crash =>
    0 ≤ event.start_ms - crash.timestamp_ms ∧
    event.start_ms - crash.timestamp_ms ≤ REACTIVE_WINDOW_MS)


/-- `compute_dopamine_debt` — per-event score clamped to [0, 100]. -/
def compute_dopamine_debt (passive_minutes_last_3h
    app_switch_frequency_z_score focus_mode_ratio
    late_night_penalty : ℚ) : ℚ :=
  let passive_norm := min (passive_minutes_last_3h / 60) 1
  let switch_norm := min (max app_switch_frequency_z_score 0) 1
  let focus_norm := min (max focus_mode_ratio 0) 1
  let late_norm := min (max late_night_penalty 0) 1
  let score := ((4:ℚ)/10 * passive_norm + 3/10 * switch_norm
    + 2/10 * (1 - focus_norm) + 1/10 * late_norm) * 100
  max 0 (min score 100)


/-- `compute_digital_debt(events, crashes)` — note: the code clamps the
total only from above (`min(..., 100.0)`), unlike its docstring. -/
def compute_digital_debt (events : List ScreenEvent)
    (crashes : List GlucoseCrash := []) : ℚ :=
  if events.isEmpty then 0
  else
    let step := events.foldl
      (fun (acc : ℚ × ℚ) evt =>
        (if is_reactive evt crashes then acc.1
         else acc.1 + evt.duration_seconds / 60,
         max acc.2 evt.dopamine_debt_score))
      (0, 0)
    let genuine_minutes := step.1
    let max_dopamine_debt := step.2
    let screen_time_factor := min (genuine_minutes / 60) 1 * 60
    let dopamine_factor := max_dopamine_debt * (4/10)
    min (screen_time_factor + dopamine_factor) 100


/-! ## Python value model

Evidence payloads are Python dicts with heterogeneous values.  We model a
value as a rational number, a string, or Python `None`, and a dict as an
association list with first-match lookup (Python dict keys are unique, a
property our update functions preserve). -/


/-- A Python value stored in an evidence payload dict. -/
inductive PyVal where
  | num (q : ℚ)
  | str (s : String)
  | pynone
deriving DecidableEq, Repr


/-- A payload dict. -/
def Dict := List (String × PyVal)
deriving DecidableEq, Repr


/-- `d.get(key)` — returns Python `None` both for a missing key and for a
stored `None`, exactly like `dict.get`. -/
def Dict.get (d : Dict) (key : String) : PyVal :=
  ((List.find? (fun p => p.1 = key) d).map (·.2)).getD .pynone


/-- Python truthiness of a payload value (`None` and `0` and `""` are
falsy). -/
def PyVal.truthy : PyVal → Bool
  | .num q => q ≠ 0
  | .str s => s ≠ ""
  | .pynone => false


/-- Python `v > c` for a payload value against a numeric literal; comparing
a string or `None` with a number raises `TypeError`. -/
def PyVal.gtNum : PyVal → ℚ → Except String Bool
  | .num q, c => .ok (q > c)
  | .str _, _ => .error "TypeError"
  | .pynone, _ => .error "TypeError"


/-- Python `v < c` under the same error semantics. -/
def PyVal.ltNum : PyVal → ℚ → Except String Bool
  | .num q, c => .ok (q < c)
  | .str _, _ => .error "TypeError"
  | .pynone, _ => .error "TypeError"


/-- `MCPToolResult` dataclass: `data=None` means "no data available". -/
structure MCPToolResult where
  data : Option Dict
  source : String
deriving DecidableEq, Repr


/-- Python `round` (banker's rounding: ties to the even integer). -/
def pyRound (x : ℚ) : ℤ :=
  let f := ⌊x⌋
  let r := x - f
  if r < 1/2 then f
  else if r > 1/2 then f + 1
  else if f % 2 = 0 then f else f + 1


/-- Python `round(x, 3)`. -/
def pyRound3 (x : ℚ) : ℚ := (pyRound (x * 1000) : ℚ) / 1000


/-- Python `f"{c:.0%}"` — percentage with zero decimals. -/
def fmtPercent (c : ℚ) : String := toString (pyRound (c * 100)) ++ "%"


/-! ## Guardrails (`guardrails.py`) -/


/-- `HRV_SAFETY_THRESHOLD_MS`. -/
def HRV_SAFETY_THRESHOLD_MS : ℚ := 20


/-- `SafetyCheckResult` dataclass. -/
structure SafetyCheckResult where
  is_safe : Bool
  hrv_value : Option ℚ
  escalation_reason : Option String := none
deriving DecidableEq, Repr


/-- The escalation reason attached by an unsafe HRV check. -/
def hrvEscalationReason : String :=
  "Critically low heart rate variability detected. " ++
  "Immediate rest intervention recommended."


/-- `check_hrv_safety(pulse_data)`: no data / no HRV field is safe;
`hrv_ms < 20.0` is unsafe.  A non-numeric `hrv_ms` value would raise
`TypeError` in Python, hence the `Except`; the health adapter only ever
stores numbers under this key. -/
def check_hrv_safety (pulse_data : Option Dict) :
    Except String SafetyCheckResult :=
  match pulse_data with
  | none => .ok ⟨true, none, none⟩
  | some d =>
    match d.get "hrv_ms" with
    | .pynone => .ok ⟨true, none, none⟩
    | .str _ => .error "TypeError"
    | .num hrv_ms =>
        if hrv_ms < HRV_SAFETY_THRESHOLD_MS then
          .ok ⟨false, some hrv_ms, some hrvEscalationReason⟩
        else .ok ⟨true, some hrv_ms, none⟩


/-- `apply_hallucination_guard(adapter_results)` — the source names whose
`data` is `None`.  Python builds a `set`; we keep the deterministic
insertion order of the results dict, so set semantics is membership in
this list. -/
def apply_hallucination_guard
    (adapter_results : List (String × MCPToolResult)) : List String :=
  adapter_results.foldl
    (fun excluded p =>
      if p.2.data.isNone then excluded ++ [p.1] else excluded) []


/-- The conclusion label map used by `sanitize_for_sms`. -/
def smsLabel (conclusion : String) : String :=
  if conclusion = "metabolic" then "dietary pattern"
  else if conclusion = "digital" then "screen behavior pattern"
  else if conclusion = "somatic" then "environmental or sleep pattern"
  else conclusion


/-- `sanitize_for_sms(symptom, conclusion, confidence)` — the privacy-safe
SMS body.  (The unused `narrative` parameter is omitted.) -/
def sanitize_for_sms (symptom : String) (conclusion : Option String)
    (confidence : ℚ) : String :=
  let parts := ["VITA Health Alert", "Detected: " ++ symptom]
  let parts :=
    match conclusion with
    | some c => if c ≠ "" then parts ++ ["Likely cause: " ++ smsLabel c]
                else parts
    | none => parts
  let parts := parts ++ ["Confidence: " ++ fmtPercent confidence]
  let parts := parts ++ ["Open VITA for full details and recommendations."]
  String.intercalate "\n" parts


/-! ## Causal agent (`agent.py`)

`CausalAgent.query` is embedded as a pure function of the symptom and the
values the five collaborators return during the query: the pulse fetch,
the glucose fetch, the two probe fetches (rotimatic, instacart), and
whether the best-effort escalation SMS went through.  Database and SMS
side effects carry no information back into the control flow besides
`escalation_triggered`.  The function also returns the list of phases the
code's Step 1–4 blocks that actually ran, in order, so that the temporal
claims can be stated. -/


/-- `MAX_ITERATIONS`. -/
def MAX_ITERATIONS : Nat := 3


/-- `CONFIDENCE_THRESHOLD`. -/
def CONFIDENCE_THRESHOLD : ℚ := 7/10


/-- `Hypothesis` dataclass. -/
structure Hypothesis where
  source_type : String
  description : String
  prior_probability : ℚ := 1/2
deriving DecidableEq, Repr


/-- `Observation` dataclass. -/
structure Observation where
  source : String
  data : Option Dict
  supports_hypothesis : Option String := none
deriving DecidableEq, Repr


/-- One `{"from": .., "to": .., "edge": ..}` entry of a causal chain. -/
structure ChainLink where
  from_ : String
  to_ : String
  edge : String
deriving DecidableEq, Repr


/-- `CausalExplanation` dataclass. -/
structure CausalExplanation where
  symptom : String
  conclusion : Option String
  confidence : ℚ
  causal_chain : List ChainLink
  narrative : String
  metabolic_debt : Option ℚ := none
  digital_debt : Option ℚ := none
  counterfactuals : List String := []
  safety_bypass : Bool := false
  escalation_triggered : Bool := false
deriving DecidableEq, Repr


/-- Python `if data:` then `data.get(key)` else `None` — a dict is falsy
when it is `None` or empty. -/
def dataTruthyGet (data : Option Dict) (key : String) : PyVal :=
  match data with
  | some d => if d.isEmpty then .pynone else d.get key
  | none => .pynone


/-- Python `v and v > c` (short-circuit: falsy values never reach the
comparison). -/
def pyAndGt (v : PyVal) (c : ℚ) : Except String Bool :=
  if v.truthy then v.gtNum c else .ok false


/-- `_generate_hypotheses(glucose_result)`. -/
def generate_hypotheses (glucose_result : MCPToolResult) :
    Except String (List Hypothesis) := do
  let high ← pyAndGt (dataTruthyGet glucose_result.data "value_mg_dl") 140
  if high then
    pure [⟨"metabolic",
           "Elevated glucose suggests recent meal is driving symptoms via metabolic pathway",
           6/10⟩,
          ⟨"digital",
           "Digital behavior may be contributing to symptoms via HRV suppression",
           3/10⟩]
  else
    pure [⟨"metabolic",
           "Meal composition may be driving symptoms via glucose response",
           4/10⟩,
          ⟨"digital",
           "Screen behavior may be driving symptoms via dopamine/HRV pathway",
           4/10⟩]


/-- Lookup in the adapter-results dict. -/
def lookupRes (m : List (String × MCPToolResult)) (k : String) :
    Option MCPToolResult :=
  (m.find? (fun p => p.1 = k)).map (·.2)


/-- Python dict assignment `m[k] = v` on the adapter-results dict. -/
def dictSet (m : List (String × MCPToolResult)) (k : String)
    (v : MCPToolResult) : List (String × MCPToolResult) :=
  match m with
  | [] => [(k, v)]
  | p :: rest => if p.1 = k then (k, v) :: rest else p :: dictSet rest k v


/-- Insert a hypothesis into a descending-sorted list, after all entries
of equal or higher prior. -/
def insertHypDesc : List Hypothesis → Hypothesis → List Hypothesis
  | [], h => [h]
  | a :: rest, h =>
      if a.prior_probability ≥ h.prior_probability then
        a :: insertHypDesc rest h
      else h :: a :: rest


/-- Python `sorted(hypotheses, key=lambda h: h.prior_probability,
reverse=True)` — a stable descending sort (equal priors keep their
original order). -/
def sortHypsDesc (l : List Hypothesis) : List Hypothesis :=
  l.foldl insertHypDesc []


/-- One iteration of `_probe`'s `for hyp in sorted_hyp` loop body: the two
conditional adapter queries, each recorded with
`supports_hypothesis="metabolic"`. -/
def probeStep (roti_result insta_result : MCPToolResult)
    (acc : List Observation × List (String × MCPToolResult))
    (hyp : Hypothesis) : List Observation × List (String × MCPToolResult) :=
  let acc :=
    if hyp.source_type = "metabolic" ∧
       lookupRes acc.2 "rotimatic_server" = none then
      (acc.1 ++ [⟨"rotimatic_server", roti_result.data, some "metabolic"⟩],
       dictSet acc.2 "rotimatic_server" roti_result)
    else acc
  if (hyp.source_type = "metabolic" ∨ hyp.source_type = "digital") ∧
     lookupRes acc.2 "instacart_server" = none then
    (acc.1 ++ [⟨"instacart_server", insta_result.data, some "metabolic"⟩],
     dictSet acc.2 "instacart_server" insta_result)
  else acc


/-- `_probe(hypotheses, existing_results)` — returns the new observations
and the updated results dict (the Python function mutates its argument).
The rotimatic and instacart fetch results are the remaining inputs. -/
def probe (hypotheses : List Hypothesis)
    (existing : List (String × MCPToolResult))
    (roti_result insta_result : MCPToolResult) :
    List Observation × List (String × MCPToolResult) :=
  (sortHypsDesc hypotheses).foldl (probeStep roti_result insta_result)
    (([] : List Observation), existing)


/-- Python truthiness of an observation's `data` field. -/
def obsDataTruthy (data : Option Dict) : Bool :=
  match data with
  | some d => ¬ d.isEmpty
  | none => false


/-- `_compute_confidence(hypotheses, observations)`. -/
def compute_confidence (_hypotheses : List Hypothesis)
    (observations : List Observation) : Except String ℚ :=
  if observations.isEmpty then .ok 0
  else
    let data_sources := (observations.filter (fun o => o.data.isSome)).length
    let total := observations.length
    let coverage : ℚ := data_sources / total
    let glucose_obs := observations.filter
      (fun o => o.source = "cgm_stelo" ∧ obsDataTruthy o.data)
    match glucose_obs with
    | [] => .ok (min (coverage * (6/10) + 3/10) 1)
    | g :: _ => do
        let val := (g.data.getD []).get "value_mg_dl"
        let boost : ℚ ←
          if val.truthy then do
            let hi ← val.gtNum 160
            if hi then pure (2/10)
            else do
              let lo ← val.ltNum 70
              pure (if lo then 2/10 else 0)
          else pure 0
        pure (min (coverage * (6/10) + 3/10 + boost) 1)


/-- Does an observation add `+0.3` to this hypothesis' score in
`_infer`? -/
def obsCounts (excluded : List String) (hyp_type : String)
    (o : Observation) : Bool :=
  o.data.isSome ∧ o.source ∉ excluded ∧ o.supports_hypothesis = some hyp_type


/-- Python dict assignment for the scores dict. -/
def scoresSet (m : List (String × ℚ)) (k : String) (v : ℚ) :
    List (String × ℚ) :=
  match m with
  | [] => [(k, v)]
  | p :: rest => if p.1 = k then (k, v) :: rest else p :: scoresSet rest k v


/-- The scores dict built by `_infer`:
`score = prior*0.2 + 0.3` per supporting, non-excluded observation. -/
def inferScores (hypotheses : List Hypothesis)
    (observations : List Observation) (excluded : List String) :
    List (String × ℚ) :=
  hypotheses.foldl
    (fun scores hyp =>
      scoresSet scores hyp.source_type
        (hyp.prior_probability * (2/10) +
          3/10 * (observations.filter (obsCounts excluded hyp.source_type)).length))
    []


/-- Python `max(scores, key=scores.get)` — the first key attaining the
maximum, in dict insertion order. -/
def argmaxPair (best : String × ℚ) : List (String × ℚ) → String × ℚ
  | [] => best
  | q :: rest => argmaxPair (if q.2 > best.2 then q else best) rest


/-- Conclusion and (unrounded) confidence from the scores dict. -/
def inferConclusion (scores : List (String × ℚ)) : Option String × ℚ :=
  match scores with
  | [] => (none, 0)
  | p :: rest =>
      let best := argmaxPair p rest
      let total := (scores.map (·.2)).sum
      (some best.1, if total > 0 then best.2 / total else 0)


/-- The `.value` string of an edge type. -/
def EdgeType.value : EdgeType → String
  | .meal_to_glucose => "meal_to_glucose"
  | .glucose_to_hrv => "glucose_to_hrv"
  | .glucose_to_energy => "glucose_to_energy"
  | .behavior_to_hrv => "behavior_to_hrv"
  | .meal_to_sleep => "meal_to_sleep"
  | .behavior_to_sleep => "behavior_to_sleep"
  | .environment_to_hrv => "environment_to_hrv"
  | .environment_to_sleep => "environment_to_sleep"
  | .environment_to_digestion => "environment_to_digestion"
  | .behavior_to_meal => "behavior_to_meal"
  | .temporal => "temporal"
  | .causal => "causal"


/-- `_build_causal_chain(conclusion, observations)` — a fixed template per
conclusion (the observations argument is unused by the code). -/
def build_causal_chain (conclusion : Option String) : List ChainLink :=
  if conclusion = some "metabolic" then
    [⟨"meal", "glucose", EdgeType.meal_to_glucose.value⟩,
     ⟨"glucose", "physiological", EdgeType.glucose_to_hrv.value⟩]
  else if conclusion = some "digital" then
    [⟨"behavioral", "physiological", EdgeType.behavior_to_hrv.value⟩]
  else []


/-- The contributing sources line of the narrative: sources with data that
survived the hallucination guard. -/
def inferDataSources (observations : List Observation)
    (excluded : List String) : List String :=
  (observations.filter
    (fun o => o.data.isSome ∧ o.source ∉ excluded)).map (·.source)


/-- `_generate_narrative(symptom, conclusion, confidence, observations,
excluded_sources)`. -/
def generate_narrative (symptom : String) (conclusion : Option String)
    (confidence : ℚ) (observations : List Observation)
    (excluded : List String) : String :=
  let parts := ["Investigating symptom: \"" ++ symptom ++ "\"."]
  let data_sources := inferDataSources observations excluded
  let parts := if data_sources.isEmpty then parts
    else parts ++ ["Data from: " ++ String.intercalate ", " data_sources ++ "."]
  let parts := if excluded.isEmpty then parts
    else parts ++ ["No data from: " ++ String.intercalate ", " excluded ++
                   " (excluded from reasoning)."]
  let parts :=
    if conclusion = some "metabolic" then
      parts ++ ["Evidence points to a metabolic pathway: meal composition affecting glucose response, which in turn impacts physiological markers."]
    else if conclusion = some "digital" then
      parts ++ ["Evidence points to a digital pathway: screen behavior patterns affecting HRV and autonomic regulation."]
    else
      parts ++ ["Insufficient evidence to determine a clear causal pathway."]
  let parts := parts ++ ["Confidence: " ++ fmtPercent confidence ++ "."]
  String.intercalate " " parts


/-- `_generate_counterfactuals(conclusion, observations)`. -/
def generate_counterfactuals (conclusion : Option String)
    (observations : List Observation) : Except String (List String) :=
  if conclusion = some "metabolic" then do
    let roti_obs := observations.filter
      (fun o => o.source = "rotimatic_server" ∧ obsDataTruthy o.data)
    let cfs ← match roti_obs with
      | [] => pure ([] : List String)
      | r :: _ => do
          let d := r.data.getD []
          let cfs := if d.get "flour_type" = .str "white" then
              ["Switching from white to multigrain flour could reduce glycemic load by ~35%"]
            else []
          let count := d.get "roti_count"
          let big ← pyAndGt count 3
          pure (if big then
            cfs ++ ["Reducing portion by 1 roti could lower the glucose spike"]
          else cfs)
    pure (cfs ++
      ["Eating earlier in the evening (before 8 PM) would remove the late-meal timing penalty"])
  else if conclusion = some "digital" then
    pure ["A 30-minute screen break could allow HRV recovery",
          "Enabling focus mode would reduce app-switching frequency"]
  else pure []


/-- `_infer(symptom, hypotheses, observations, excluded_sources, ..)`. -/
def infer (symptom : String) (hypotheses : List Hypothesis)
    (observations : List Observation) (excluded : List String) :
    Except String CausalExplanation := do
  let scores := inferScores hypotheses observations excluded
  let (conclusion, confidence) := inferConclusion scores
  let causal_chain := build_causal_chain conclusion
  let narrative :=
    generate_narrative symptom conclusion confidence observations excluded
  let counterfactuals ← generate_counterfactuals conclusion observations
  pure { symptom := symptom, conclusion := conclusion,
         confidence := pyRound3 confidence, causal_chain := causal_chain,
         narrative := narrative, counterfactuals := counterfactuals }


/-- The fixed narrative of the rest-intervention response. -/
def restInterventionNarrative : String :=
  "Safety bypass activated: critically low heart rate variability detected. " ++
  "All reasoning paused. Immediate rest intervention recommended."


/-- `_handle_safety_bypass(symptom, safety, ..)` — `escalation_ok` is
whether the best-effort Twilio escalation went through. -/
def handle_safety_bypass (symptom : String) (_safety : SafetyCheckResult)
    (escalation_ok : Bool) : CausalExplanation :=
  { symptom := symptom, conclusion := none, confidence := 1,
    causal_chain := [], narrative := restInterventionNarrative,
    safety_bypass := true, escalation_triggered := escalation_ok }


/-- The bounded probe loop of `query` (Step 3): probe, record new
observations, refresh the adapter-results dict, then stop once the
confidence reaches the threshold or the iteration budget is spent. -/
def probeLoop (hypotheses : List Hypothesis)
    (roti_result insta_result : MCPToolResult) :
    Nat → List (String × MCPToolResult) × List Observation →
    Except String (List (String × MCPToolResult) × List Observation)
  | 0, st => .ok st
  | n + 1, (adapter_results, observations) => do
      let (new_observations, adapter_results) :=
        probe hypotheses adapter_results roti_result insta_result
      let observations := observations ++ new_observations
      let adapter_results := new_observations.foldl
        (fun m o =>
          if lookupRes m o.source = none then m ++ [(o.source, ⟨o.data, o.source⟩)]
          else m)
        adapter_results
      let confidence ← compute_confidence hypotheses observations
      if confidence ≥ CONFIDENCE_THRESHOLD then
        .ok (adapter_results, observations)
      else
        probeLoop hypotheses roti_result insta_result n (adapter_results, observations)


/-- The phase labels of the four steps of `query`. -/
def allPhases : List String := ["pulse", "hypothesis", "probe", "inference"]


/-- `CausalAgent.query(symptom)` — pure embedding.  Inputs: the symptom and
the collaborator results (pulse fetch, glucose fetch, rotimatic probe,
instacart probe, escalation-SMS success).  Output: the explanation paired
with the list of phases that ran. -/
def query (symptom : String)
    (pulse_result glucose_result roti_result insta_result : MCPToolResult)
    (escalation_ok : Bool) :
    Except String (CausalExplanation × List String) := do
  let safety ← check_hrv_safety pulse_result.data
  if ¬ safety.is_safe then
    pure (handle_safety_bypass symptom safety escalation_ok, ["pulse"])
  else do
    let observations : List Observation :=
      [⟨"apple_health", pulse_result.data, none⟩,
       ⟨"cgm_stelo", glucose_result.data, none⟩]
    let hypotheses ← generate_hypotheses glucose_result
    let adapter_results :=
      [("apple_health", pulse_result), ("cgm_stelo", glucose_result)]
    let (adapter_results, observations) ←
      probeLoop hypotheses roti_result insta_result MAX_ITERATIONS
        (adapter_results, observations)
    let excluded_sources := apply_hallucination_guard adapter_results
    let explanation ← infer symptom hypotheses observations excluded_sources
    pure (explanation, allPhases)


/-! ## Claim-side and proof-side auxiliary definitions -/


/-- The `hrv_ms` value seen by the safety check (`None` when the payload
or the field is missing). -/
def hrvField (pulse : Option Dict) : PyVal :=
  match pulse with
  | none => .pynone
  | some d => d.get "hrv_ms"


/-- Is a payload value a string? -/
def PyVal.isStr : PyVal → Bool
  | .str _ => true
  | _ => false


/-- The C5 meal: glycemic load 50, peak-to-nadir spike 80 (170 − 90), no
HRV drop (post-meal average equal to the baseline 60), unknown
bioavailability modifier, meal hour 12 (< 20). -/
def mealC5 : MealDebtInput := ⟨50, 170, 90, 60, 60, none, 12⟩


/-- The claim's edge-validity condition: both endpoint prefixes map to a
recognized node type, the type pair is not forbidden, and the source's
topological index does not exceed the target's. -/
def edgeAllowed (e : DAGEdge) : Bool :=
  match node_type_from_id e.source, node_type_from_id e.target with
  | some src_type, some tgt_type =>
      (src_type, tgt_type) ∉ FORBIDDEN_EDGES ∧
      TOPOLOGICAL_ORDER.indexOf src_type ≤ TOPOLOGICAL_ORDER.indexOf tgt_type
  | _, _ => false


/-- A sequence of `add_edge` calls starting from the empty DAG. -/
def addAll (es : List DAGEdge) : CausalDAG :=
  es.foldl (fun g e => (g.add_edge e).2) CausalDAG.empty


/-- An edge chain through the adjacency structure: each edge is an
outgoing edge of the node reached so far, ending at `t`. -/
def isEdgePath (g : CausalDAG) : String → List DAGEdge → String → Prop
  | s, [], t => s = t
  | s, e :: rest, t => e ∈ g.neighbors s ∧ isEdgePath g e.target rest t


/-- The node sequence visited by a path starting at `s`. -/
def pathNodes (s : String) (p : List DAGEdge) : List String :=
  s :: p.map (·.target)


/-- What `_dfs` collects below a node, in closed form: at the target, the
accumulated path (when non-empty and within depth); elsewhere, every
extension of the accumulated path by a non-empty chain to the target
whose nodes are fresh. -/
def dfsSpec (g : CausalDAG) (t cur : String) (path : List DAGEdge)
    (visited : List String) (d : Nat) (q : List DAGEdge) : Prop :=
  if cur = t then q = path ∧ path ≠ [] ∧ path.length ≤ d
  else ∃ ext, q = path ++ ext ∧ ext ≠ [] ∧ isEdgePath g cur ext t ∧
    (ext.map (·.target)).Nodup ∧
    (∀ x ∈ ext.map (·.target), x ∉ cur :: visited) ∧
    path.length + ext.length ≤ d


/-- The C9 example DAG's first edge: meal → glucose. -/
def edgeMG : DAGEdge := ⟨"meal_a", "glucose_b", .meal_to_glucose, 1/2⟩


/-- The C9 example DAG's second edge: glucose → physiological. -/
def edgeGP : DAGEdge := ⟨"glucose_b", "physio_c", .glucose_to_hrv, 1/2⟩


/-- The C9 example DAG holding exactly meal→glucose and glucose→physio. -/
def dagC9 : CausalDAG :=
  ((CausalDAG.empty.add_edge edgeMG).2.add_edge edgeGP).2


/-! ## Theorems -/


/-- C4: for every pulse input (whose `hrv_ms` field, when present, is
numeric — the only shape the health adapter produces), `check_hrv_safety`
returns without raising, `is_safe = false` iff the input carries an
`hrv_ms` value strictly below 20.0 (so exactly 20.0, a missing field and
missing data are all safe), and an unsafe result carries a non-null
escalation reason. -/
theorem check_hrv_safety_c4 (pulse : Option Dict)
    (hnum : (hrvField pulse).isStr = false) :
    ∃ r, check_hrv_safety pulse = .ok r ∧
      (r.is_safe = false ↔ ∃ q, hrvField pulse = .num q ∧ q < 20) ∧
      (r.is_safe = false → r.escalation_reason ≠ none) := by
  cases pulse with
  | none =>
      refine ⟨⟨true, none, none⟩, rfl, ?_, by simp⟩
      simp [hrvField]
  | some d =>
      simp only [hrvField] at hnum ⊢
      rcases hv : d.get "hrv_ms" with q | s | _
      · by_cases hlt : q < HRV_SAFETY_THRESHOLD_MS
        · refine ⟨⟨false, some q, some hrvEscalationReason⟩, ?_, ?_, by simp⟩
          · simp [check_hrv_safety, hv, hlt]
          · simp only [HRV_SAFETY_THRESHOLD_MS] at hlt
            simp [hlt]
        · refine ⟨⟨true, some q, none⟩, ?_, ?_, by simp⟩
          · simp [check_hrv_safety, hv, hlt]
          · simp only [HRV_SAFETY_THRESHOLD_MS, not_lt] at hlt
            simp only [PyVal.num.injEq]
            constructor
            · intro h; simp at h
            · rintro ⟨q', rfl, hq'⟩
              exact absurd hq' (by linarith)
      · rw [hv] at hnum
        simp [PyVal.isStr] at hnum
      · refine ⟨⟨true, none, none⟩, ?_, ?_, by simp⟩
        · simp [check_hrv_safety, hv]
        · simp


/-- Witness for C4 at a concrete unsafe input: a pulse payload with
`hrv_ms = 15.0` yields `is_safe = false`. -/
theorem check_hrv_safety_c4_witness :
    ∃ r, check_hrv_safety (some [("hrv_ms", .num 15)]) = .ok r ∧
      (r.is_safe = false ↔
        ∃ q, hrvField (some [("hrv_ms", .num 15)]) = .num q ∧ q < 20) ∧
      (r.is_safe = false → r.escalation_reason ≠ none) :=
  check_hrv_safety_c4 (some [("hrv_ms", .num 15)]) (by decide)


/-- C7: `classify_trend` matches the exact bucket table, including the
boundary values 1.0, -1.0, 3.0 and -3.0. -/
theorem classify_trend_c7 (r : ℚ) :
    (r > 3 → classify_trend r = .rapidly_rising) ∧
    (1 ≤ r ∧ r ≤ 3 → classify_trend r = .rising) ∧
    (-1 < r ∧ r < 1 → classify_trend r = .stable) ∧
    (-3 ≤ r ∧ r ≤ -1 → classify_trend r = .falling) ∧
    (r < -3 → classify_trend r = .rapidly_falling) ∧
    classify_trend 1 = .rising ∧ classify_trend (-1) = .falling ∧
    classify_trend 3 = .rising ∧ classify_trend (-3) = .falling := by
  refine ⟨?_, ?_, ?_, ?_, ?_, by decide, by decide, by decide, by decide⟩
  · intro h; simp [classify_trend, h]
  · rintro ⟨h1, h3⟩
    have : ¬ r > 3 := not_lt.mpr h3
    simp [classify_trend, this, h1]
  · rintro ⟨hm, hp⟩
    have h3 : ¬ r > 3 := by intro h; linarith
    have h1 : ¬ r ≥ 1 := by intro h; linarith
    simp [classify_trend, h3, h1, hm]
  · rintro ⟨hm3, hm1⟩
    have h3 : ¬ r > 3 := by intro h; linarith
    have h1 : ¬ r ≥ 1 := by intro h; linarith
    have hs : ¬ r > -1 := by intro h; linarith
    simp [classify_trend, h3, h1, hs, hm3]
  · intro h
    have h3 : ¬ r > 3 := by intro h'; linarith
    have h1 : ¬ r ≥ 1 := by intro h'; linarith
    have hs : ¬ r > -1 := by intro h'; linarith
    have hf : ¬ r ≥ -3 := by intro h'; linarith
    simp [classify_trend, h3, h1, hs, hf]


/-- Witness for C7 at concrete rates: 2.0 is rising and 4.0 is rapidly
rising. -/
theorem classify_trend_c7_witness :
    classify_trend 2 = .rising ∧ classify_trend 4 = .rapidly_rising :=
  ⟨(classify_trend_c7 2).2.1 (by norm_num),
   (classify_trend_c7 4).1 (by norm_num)⟩


/-- C5 counterexample: on the claimed meal the code's raw per-meal debt is
not 0.33 and the aggregate is not 33.0 (GL = 50 and spike = 80 each
contribute the full 0.3, so the raw debt is 0.63). -/
theorem compute_metabolic_debt_c5_counterexample :
    compute_meal_debt mealC5 ≠ 33/100 ∧
    compute_metabolic_debt [mealC5] ≠ 33 := by
  constructor <;>
    norm_num [compute_metabolic_debt, compute_meal_debt, mealC5, List.isEmpty]


/-- C5 amended: `compute_metabolic_debt([]) = 0.0`, and on the claimed
meal (GL 50, spike 80, no HRV drop, unknown bioavailability, hour < 20)
the raw per-meal debt is 0.63 and the aggregate score is 63.0. -/
theorem compute_metabolic_debt_c5_amended :
    compute_metabolic_debt [] = 0 ∧
    compute_meal_debt mealC5 = 63/100 ∧
    compute_metabolic_debt [mealC5] = 63 := by
  refine ⟨?_, ?_, ?_⟩ <;>
    norm_num [compute_metabolic_debt, compute_meal_debt, mealC5, List.isEmpty]


/-- C6 (code bug): `sanitize_for_sms` never truncates, so a 228-character
symptom (with no conclusion and confidence 1.0) yields a 321-character
message, above the 320-character limit asserted by the claim and by the
function's own docstring and test. -/
theorem sanitize_for_sms_c6_overflow :
    320 < (sanitize_for_sms (String.mk (List.replicate 228 'a'))
             none 1).length := by
  have h : fmtPercent 1 = "100%" := by
    norm_num [fmtPercent, pyRound]
    rfl
  simp only [sanitize_for_sms, h]
  decide


/-- An edge reached by `adjAppend` was already present or is the new
edge. -/
lemma mem_adjAppend {adj : List (String × List DAGEdge)} {key : String}
    {e x : DAGEdge} (hx : x ∈ (adjAppend adj key e).flatMap (·.2)) :
    x ∈ adj.flatMap (·.2) ∨ x = e := by
  induction adj with
  | nil =>
      simp [adjAppend] at hx
      exact Or.inr hx
  | cons p rest ih =>
      obtain ⟨k, es⟩ := p
      by_cases hk : k = key
      · rw [show adjAppend ((k, es) :: rest) key e =
              (k, es ++ [e]) :: rest by simp [adjAppend, hk]] at hx
        simp only [List.flatMap_cons, List.mem_append] at hx ⊢
        rcases hx with (hx | hx) | hx
        · exact Or.inl (Or.inl hx)
        · exact Or.inr (List.mem_singleton.mp hx)
        · exact Or.inl (Or.inr hx)
      · rw [show adjAppend ((k, es) :: rest) key e =
              (k, es) :: adjAppend rest key e by simp [adjAppend, hk]] at hx
        simp only [List.flatMap_cons, List.mem_append] at hx ⊢
        rcases hx with hx | hx
        · exact Or.inl (Or.inl hx)
        · rcases ih hx with hx | hx
          · exact Or.inl (Or.inr hx)
          · exact Or.inr hx


/-- `add_edge` in closed form: it returns the validity verdict and inserts
exactly when the edge is valid. -/
lemma add_edge_eq (g : CausalDAG) (e : DAGEdge) :
    g.add_edge e =
      (edgeAllowed e,
       if edgeAllowed e then ⟨adjAppend g.adjacency e.source e⟩ else g) := by
  unfold CausalDAG.add_edge edgeAllowed
  cases hs : node_type_from_id e.source with
  | none => simp
  | some src_type =>
      cases ht : node_type_from_id e.target with
      | none => simp
      | some tgt_type =>
          by_cases hf : (src_type, tgt_type) ∈ FORBIDDEN_EDGES
          · simp [hf]
          · by_cases hi : TOPOLOGICAL_ORDER.indexOf src_type >
                TOPOLOGICAL_ORDER.indexOf tgt_type
            · simp [hf, hi, Nat.not_le.mpr hi]
            · simp [hf, hi, Nat.le_of_not_lt hi]


/-- Every edge held by a DAG built by `add_edge` calls is valid. -/
lemma addAll_invariant (es : List DAGEdge) :
    ∀ g : CausalDAG, (∀ x ∈ g.all_edges, edgeAllowed x) →
      ∀ x ∈ (es.foldl (fun g e => (g.add_edge e).2) g).all_edges,
        edgeAllowed x := by
  induction es with
  | nil => intro g hg x hx; exact hg x hx
  | cons e rest ih =>
      intro g hg x hx
      rw [List.foldl_cons] at hx
      refine ih _ ?_ x hx
      intro y hy
      replace hy : y ∈ ((g.add_edge e).2).all_edges := hy
      rw [add_edge_eq] at hy
      by_cases he : edgeAllowed e
      · simp only [if_pos he] at hy
        rcases mem_adjAppend hy with hmem | rfl
        · exact hg y hmem
        · exact he
      · simp only [if_neg he] at hy
        exact hg y hy


/-- C2: `add_edge` returns `False` and leaves the adjacency structure
unchanged exactly when an endpoint's prefix is unrecognized, the type
pair is forbidden, or the source's topological index exceeds the
target's; otherwise it stores the edge and returns `True`.  Consequently
every edge held after any sequence of `add_edge` calls satisfies the
validity condition. -/
theorem add_edge_c2 :
    (∀ (g : CausalDAG) (e : DAGEdge),
      g.add_edge e =
        (edgeAllowed e,
         if edgeAllowed e then ⟨adjAppend g.adjacency e.source e⟩ else g)) ∧
    (∀ (es : List DAGEdge) (x : DAGEdge),
      x ∈ (addAll es).all_edges → edgeAllowed x) :=
  ⟨add_edge_eq, fun es x hx =>
    addAll_invariant es CausalDAG.empty (by simp [CausalDAG.all_edges, CausalDAG.empty]) x hx⟩


/-- Witness for C2: a `meal → glucose` edge is accepted and is the sole
edge stored, and it satisfies the validity condition. -/
theorem add_edge_c2_witness :
    (CausalDAG.empty.add_edge ⟨"meal_x", "glucose_y", .meal_to_glucose, 1/2⟩).1
      = true ∧
    edgeAllowed ⟨"meal_x", "glucose_y", .meal_to_glucose, 1/2⟩ = true := by
  constructor
  · rw [(add_edge_c2.1 CausalDAG.empty ⟨"meal_x", "glucose_y", .meal_to_glucose, 1/2⟩)]
    rfl
  · exact add_edge_c2.2 [⟨"meal_x", "glucose_y", .meal_to_glucose, 1/2⟩]
      ⟨"meal_x", "glucose_y", .meal_to_glucose, 1/2⟩ (List.Mem.head _)


/-- Membership in the hallucination guard's accumulator-passing fold. -/
lemma guard_mem_aux (adapter_results : List (String × MCPToolResult)) :
    ∀ (acc : List String) (s : String),
      s ∈ adapter_results.foldl
        (fun excluded p =>
          if p.2.data.isNone then excluded ++ [p.1] else excluded) acc ↔
      s ∈ acc ∨ ∃ r, (s, r) ∈ adapter_results ∧ r.data = none := by
  induction adapter_results with
  | nil => intro acc s; simp
  | cons p rest ih =>
      intro acc s
      obtain ⟨name, result⟩ := p
      rw [List.foldl_cons]
      by_cases hd : result.data.isNone
      · rw [if_pos hd]
        rw [Option.isNone_iff_eq_none] at hd
        rw [ih]
        constructor
        · rintro (h | ⟨r, hr, hrd⟩)
          · rcases List.mem_append.mp h with h | h
            · exact Or.inl h
            · refine Or.inr ⟨result, ?_, hd⟩
              rw [List.mem_singleton.mp h]
              exact List.Mem.head _
          · exact Or.inr ⟨r, List.mem_cons_of_mem _ hr, hrd⟩
        · rintro (h | ⟨r, hr, hrd⟩)
          · exact Or.inl (List.mem_append.mpr (Or.inl h))
          · rcases List.mem_cons.mp hr with h | h
            · refine Or.inl (List.mem_append.mpr (Or.inr ?_))
              simp only [Prod.mk.injEq] at h
              simp [h.1]
            · exact Or.inr ⟨r, h, hrd⟩
      · rw [if_neg hd]
        have hd' : result.data ≠ none := by
          simpa [Option.isNone_iff_eq_none] using hd
        rw [ih]
        constructor
        · rintro (h | ⟨r, hr, hrd⟩)
          · exact Or.inl h
          · exact Or.inr ⟨r, List.mem_cons_of_mem _ hr, hrd⟩
        · rintro (h | ⟨r, hr, hrd⟩)
          · exact Or.inl h
          · rcases List.mem_cons.mp hr with h | h
            · simp only [Prod.mk.injEq] at h
              exact absurd (h.2 ▸ hrd) hd'
            · exact Or.inr ⟨r, h, hrd⟩


/-- C3: `apply_hallucination_guard` returns exactly the source names whose
`data` field is `None`; the inference scores are unchanged if all
observations from excluded sources are dropped (no excluded source
contributes to any hypothesis score); and the narrative's contributing
"Data from" sources never include an excluded source (excluded sources
are printed only in the separate "No data from" sentence). -/
theorem hallucination_guard_c3 :
    (∀ (adapter_results : List (String × MCPToolResult)) (s : String),
      s ∈ apply_hallucination_guard adapter_results ↔
        ∃ r, (s, r) ∈ adapter_results ∧ r.data = none) ∧
    (∀ (hypotheses : List Hypothesis) (observations : List Observation)
       (excluded : List String),
      inferScores hypotheses
        (observations.filter (fun o => o.source ∉ excluded)) excluded =
        inferScores hypotheses observations excluded) ∧
    (∀ (observations : List Observation) (excluded : List String)
       (s : String),
      s ∈ inferDataSources observations excluded → s ∉ excluded) := by
  refine ⟨?_, ?_, ?_⟩
  · intro adapter_results s
    rw [apply_hallucination_guard, guard_mem_aux]
    simp
  · intro hypotheses observations excluded
    unfold inferScores
    have hfilter : ∀ t : String,
        (observations.filter (fun o => o.source ∉ excluded)).filter
          (obsCounts excluded t) =
        observations.filter (obsCounts excluded t) := by
      intro t
      rw [List.filter_filter]
      apply List.filter_congr
      intro o _
      by_cases hc : obsCounts excluded t o
      · have : o.source ∉ excluded := by
          have := hc
          unfold obsCounts at this
          simp only [Bool.and_eq_true, decide_eq_true_eq] at this
          exact this.2.1
        simp [hc, this]
      · simp [hc]
    simp only [hfilter]
  · intro observations excluded s hs
    unfold inferDataSources at hs
    obtain ⟨o, ho, rfl⟩ := List.mem_map.mp hs
    have := List.of_mem_filter ho
    simp only [Bool.and_eq_true, decide_eq_true_eq] at this
    exact this.2


/-- Witness for C3 at concrete inputs: with results {apple_health: None,
cgm_stelo: data}, `apple_health` is excluded, and a surviving `cgm_stelo`
observation named in the narrative's contributing sources is not in the
excluded set. -/
theorem hallucination_guard_c3_witness :
    ("apple_health" ∈ apply_hallucination_guard
        [("apple_health", ⟨none, "apple_health"⟩),
         ("cgm_stelo", ⟨some [], "cgm_stelo"⟩)]) ∧
    "cgm_stelo" ∉ ["apple_health"] := by
  constructor
  · exact (hallucination_guard_c3.1
      [("apple_health", ⟨none, "apple_health"⟩),
       ("cgm_stelo", ⟨some [], "cgm_stelo"⟩)] "apple_health").mpr
      ⟨⟨none, "apple_health"⟩, by simp, rfl⟩
  · exact hallucination_guard_c3.2.2
      [⟨"cgm_stelo", some [], none⟩] ["apple_health"] "cgm_stelo"
      (by simp [inferDataSources])


/-- C8 (code bug): the aggregate digital debt is only clamped from above
(`min(..., 100.0)`), not below, so a single event with a negative
duration yields the negative score −2.0 where the claimed
`clamp(screenFactor + dopamineFactor, 0, 100)` would give 0; the claim's
concrete cases (empty → 0, 60 genuine minutes → 60, 120 genuine minutes
capped at 60, zero-duration event with dopamine 100 → 40) do hold. -/
theorem compute_digital_debt_c8 :
    compute_digital_debt [⟨0, -120, 0⟩] [] = -2 ∧
    compute_digital_debt [] [] = 0 ∧
    compute_digital_debt [⟨0, 3600, 0⟩] [] = 60 ∧
    compute_digital_debt [⟨0, 7200, 0⟩] [] = 60 ∧
    compute_digital_debt [⟨0, 0, 100⟩] [] = 40 := by
  refine ⟨?_, ?_, ?_, ?_, ?_⟩ <;>
    norm_num [compute_digital_debt, is_reactive, List.isEmpty, List.foldl,
      List.any]


/-- C1: whenever the fetched pulse data fails the HRV safety check,
`query` terminates immediately after the PULSE phase with the
rest-intervention explanation — `safety_bypass = true`,
`confidence = 1.0`, `conclusion = None`, empty causal chain, the
non-empty rest-intervention narrative — and the HYPOTHESIS, PROBE and
INFERENCE phases never run (the phase log is exactly `["pulse"]`),
regardless of the glucose, rotimatic and instacart evidence and of the
escalation outcome. -/
theorem query_safety_bypass_c1 (symptom : String)
    (pulse_result glucose_result roti_result insta_result : MCPToolResult)
    (escalation_ok : Bool) (sr : SafetyCheckResult)
    (hsr : check_hrv_safety pulse_result.data = .ok sr)
    (hnotsafe : sr.is_safe = false) :
    ∃ e, query symptom pulse_result glucose_result roti_result insta_result
        escalation_ok = .ok (e, ["pulse"]) ∧
      e.safety_bypass = true ∧ e.confidence = 1 ∧ e.conclusion = none ∧
      e.causal_chain = [] ∧ e.narrative = restInterventionNarrative ∧
      e.narrative ≠ "" := by
  refine ⟨handle_safety_bypass symptom sr escalation_ok, ?_, rfl, rfl, rfl,
    rfl, rfl, by simp [handle_safety_bypass, restInterventionNarrative]⟩
  unfold query
  rw [hsr]
  have hb : ∀ {β} (f : SafetyCheckResult → Except String β),
      ((Except.ok sr : Except String SafetyCheckResult) >>= f) = f sr :=
    fun _ => rfl
  rw [hb]
  simp only [hnotsafe, Bool.false_eq_true, not_false_eq_true, if_true]
  rfl


/-- `Except` bind on a success, definitionally. -/
lemma exceptBindOk {α β : Type} (a : α) (f : α → Except String β) :
    (Except.ok a >>= f) = f a := rfl


/-- `Except` bind on an error, definitionally. -/
lemma exceptBindErr {α β : Type} (msg : String)
    (f : α → Except String β) :
    ((Except.error msg : Except String α) >>= f) = Except.error msg := rfl


/-- `Except` map on a success, definitionally. -/
lemma exceptMapOk {α β : Type} (g : α → β) (a : α) :
    (g <$> (Except.ok a : Except String α)) = Except.ok (g a) := rfl


/-- `Except` map on an error, definitionally. -/
lemma exceptMapErr {α β : Type} (g : α → β) (msg : String) :
    (g <$> (Except.error msg : Except String α)) = Except.error msg := rfl


/-- Hypothesis generation always yields exactly a metabolic and a digital
hypothesis, in that order, with the digital prior never above the
metabolic one (0.6/0.3 on high glucose, else 0.4/0.4). -/
lemma generate_hypotheses_shape (g : MCPToolResult)
    (hyps : List Hypothesis)
    (h : generate_hypotheses g = .ok hyps) :
    ∃ hm hd, hyps = [hm, hd] ∧ hm.source_type = "metabolic" ∧
      hd.source_type = "digital" ∧
      hd.prior_probability ≤ hm.prior_probability := by
  unfold generate_hypotheses at h
  cases hv : pyAndGt (dataTruthyGet g.data "value_mg_dl") 140 with
  | error msg => rw [hv, exceptBindErr] at h; exact Except.noConfusion h
  | ok b =>
      rw [hv, exceptBindOk] at h
      cases b with
      | true =>
          rw [if_pos rfl] at h
          have h' : Except.ok (ε := String)
              [⟨"metabolic",
                "Elevated glucose suggests recent meal is driving symptoms via metabolic pathway",
                6/10⟩,
               ⟨"digital",
                "Digital behavior may be contributing to symptoms via HRV suppression",
                3/10⟩] = Except.ok hyps := h
          injection h' with h''
          exact ⟨_, _, h''.symm, rfl, rfl, by norm_num⟩
      | false =>
          rw [if_neg (by simp)] at h
          have h' : Except.ok (ε := String)
              [⟨"metabolic",
                "Meal composition may be driving symptoms via glucose response",
                4/10⟩,
               ⟨"digital",
                "Screen behavior may be driving symptoms via dopamine/HRV pathway",
                4/10⟩] = Except.ok hyps := h
          injection h' with h''
          exact ⟨_, _, h''.symm, rfl, rfl, by norm_num⟩


/-- A conditional probe extension only appends observations supporting
the metabolic hypothesis. -/
lemma probe_extension_supports
    (a : List Observation × List (String × MCPToolResult)) (c : Prop)
    [Decidable c] (src : String) (d : Option Dict) (res : MCPToolResult)
    (key : String)
    (hacc : ∀ o ∈ a.1, o.supports_hypothesis = some "metabolic") :
    ∀ o ∈ (if c then (a.1 ++ [⟨src, d, some "metabolic"⟩],
             dictSet a.2 key res)
           else a).1,
      o.supports_hypothesis = some "metabolic" := by
  split_ifs with h
  · intro o ho
    rcases List.mem_append.mp ho with h' | h'
    · exact hacc o h'
    · rw [List.mem_singleton.mp h']
  · exact hacc


/-- Every observation added by one probe-loop body supports the metabolic
hypothesis. -/
lemma probeStep_supports (r i : MCPToolResult)
    (acc : List Observation × List (String × MCPToolResult))
    (hyp : Hypothesis)
    (hacc : ∀ o ∈ acc.1, o.supports_hypothesis = some "metabolic") :
    ∀ o ∈ (probeStep r i acc hyp).1,
      o.supports_hypothesis = some "metabolic" := by
  unfold probeStep
  exact probe_extension_supports _ _ _ _ _ _
    (probe_extension_supports _ _ _ _ _ _ hacc)


/-- Every observation produced by `_probe` supports the metabolic
hypothesis — including the instacart probe. -/
lemma probe_supports (hypotheses : List Hypothesis)
    (existing : List (String × MCPToolResult)) (r i : MCPToolResult) :
    ∀ o ∈ (probe hypotheses existing r i).1,
      o.supports_hypothesis = some "metabolic" := by
  unfold probe
  generalize sortHypsDesc hypotheses = l
  have aux : ∀ (l : List Hypothesis)
      (acc : List Observation × List (String × MCPToolResult)),
      (∀ o ∈ acc.1, o.supports_hypothesis = some "metabolic") →
      ∀ o ∈ (l.foldl (probeStep r i) acc).1,
        o.supports_hypothesis = some "metabolic" := by
    intro l
    induction l with
    | nil => intro acc hacc; exact hacc
    | cons hyp rest ih =>
        intro acc hacc
        rw [List.foldl_cons]
        exact ih _ (probeStep_supports r i acc hyp hacc)
  exact aux l (([], existing)) (by intro o ho; exact absurd ho (by simp))


/-- The probe loop never records an observation supporting the digital
hypothesis. -/
lemma probeLoop_no_digital (hyps : List Hypothesis) (r i : MCPToolResult) :
    ∀ (n : Nat)
      (st st' : List (String × MCPToolResult) × List Observation),
      (∀ o ∈ st.2, o.supports_hypothesis ≠ some "digital") →
      probeLoop hyps r i n st = .ok st' →
      ∀ o ∈ st'.2, o.supports_hypothesis ≠ some "digital" := by
  intro n
  induction n with
  | zero =>
      intro st st' hst h
      unfold probeLoop at h
      have h' : Except.ok (ε := String) st = Except.ok st' := h
      injection h' with h''
      rw [← h'']
      exact hst
  | succ n ih =>
      intro st st' hst h
      obtain ⟨ex, obs⟩ := st
      unfold probeLoop at h
      rcases hpr : probe hyps ex r i with ⟨newObs, ex'⟩
      rw [hpr] at h
      dsimp only at h
      have hobs' : ∀ o ∈ obs ++ newObs,
          o.supports_hypothesis ≠ some "digital" := by
        intro o ho
        rcases List.mem_append.mp ho with ho | ho
        · exact hst o ho
        · have := probe_supports hyps ex r i o (by rw [hpr]; exact ho)
          rw [this]
          simp
      cases hc : compute_confidence hyps (obs ++ newObs) with
      | error msg => rw [hc, exceptBindErr] at h; exact Except.noConfusion h
      | ok conf =>
          rw [hc, exceptBindOk] at h
          by_cases hge : conf ≥ CONFIDENCE_THRESHOLD
          · rw [if_pos hge] at h
            have h' : Except.ok (ε := String) _ = Except.ok st' := h
            injection h' with h''
            rw [← h'']
            exact hobs'
          · rw [if_neg hge] at h
            exact ih _ st' hobs' h


/-- The scores dict `_infer` builds for a metabolic-then-digital
hypothesis list, in closed form. -/
lemma inferScores_pair (hm hd : Hypothesis) (obs : List Observation)
    (excl : List String) (hmt : hm.source_type = "metabolic")
    (hdt : hd.source_type = "digital") :
    inferScores [hm, hd] obs excl =
      [("metabolic", hm.prior_probability * (2/10) +
          3/10 * (obs.filter (obsCounts excl "metabolic")).length),
       ("digital", hd.prior_probability * (2/10) +
          3/10 * (obs.filter (obsCounts excl "digital")).length)] := by
  unfold inferScores
  rw [List.foldl_cons, List.foldl_cons, List.foldl_nil, hmt, hdt]
  rfl


/-- If no observation supports the digital hypothesis, the digital score
collects no observation bonus. -/
lemma no_digital_count (obs : List Observation) (excl : List String)
    (h : ∀ o ∈ obs, o.supports_hypothesis ≠ some "digital") :
    obs.filter (obsCounts excl "digital") = [] := by
  rw [List.filter_eq_nil_iff]
  intro o ho
  unfold obsCounts
  simp [h o ho]


/-- With the metabolic score at least the digital one, the arg-max (first
key attaining the maximum, in insertion order) is metabolic. -/
lemma inferConclusion_metabolic (sm sd : ℚ) (hle : sd ≤ sm) :
    (inferConclusion [("metabolic", sm), ("digital", sd)]).1 =
      some "metabolic" := by
  unfold inferConclusion
  dsimp only
  simp only [argmaxPair]
  rw [if_neg (not_lt.mpr hle)]


/-- The conclusion field of a successful `_infer` run is the arg-max of
the scores dict. -/
lemma infer_conclusion_eq (symptom : String) (hyps : List Hypothesis)
    (obs : List Observation) (excl : List String)
    (expl : CausalExplanation)
    (h : infer symptom hyps obs excl = .ok expl) :
    expl.conclusion = (inferConclusion (inferScores hyps obs excl)).1 := by
  unfold infer at h
  dsimp only at h
  rcases hic : inferConclusion (inferScores hyps obs excl) with ⟨conc, conf⟩
  rw [hic] at h
  dsimp only at h
  cases hcf : generate_counterfactuals conc obs with
  | error msg => rw [hcf, exceptBindErr] at h; exact Except.noConfusion h
  | ok cfs =>
      rw [hcf, exceptBindOk] at h
      have h' : Except.ok (ε := String) _ = Except.ok expl := h
      injection h' with h''
      rw [← h'']


/-- C10 (implicit): on every query that returns without taking the
safety-bypass path, the conclusion is `"metabolic"` — never `"digital"`
and never `None`.  The priors never favor digital (0.6/0.3 or 0.4/0.4),
every probe observation is recorded with
`supports_hypothesis="metabolic"`, so the digital score never exceeds
the metabolic one and the insertion-order arg-max tie-break picks
metabolic. -/
theorem query_conclusion_c10 (symptom : String)
    (pulse_result glucose_result roti_result insta_result : MCPToolResult)
    (escalation_ok : Bool) (sr : SafetyCheckResult)
    (hsr : check_hrv_safety pulse_result.data = .ok sr)
    (hsafe : sr.is_safe = true) (e : CausalExplanation)
    (phases : List String)
    (hq : query symptom pulse_result glucose_result roti_result insta_result
        escalation_ok = .ok (e, phases)) :
    e.conclusion = some "metabolic" := by
  unfold query at hq
  rw [hsr] at hq
  have hb : ∀ {β} (f : SafetyCheckResult → Except String β),
      ((Except.ok sr : Except String SafetyCheckResult) >>= f) = f sr :=
    fun _ => rfl
  rw [hb] at hq
  rw [if_neg (by simp [hsafe])] at hq
  cases hg : generate_hypotheses glucose_result with
  | error msg => rw [hg, exceptBindErr] at hq; exact Except.noConfusion hq
  | ok hyps =>
      rw [hg, exceptBindOk] at hq
      dsimp only at hq
      obtain ⟨hm, hd, rfl, hmt, hdt, hple⟩ :=
        generate_hypotheses_shape glucose_result hyps hg
      cases hpl : probeLoop [hm, hd] roti_result insta_result MAX_ITERATIONS
          ([("apple_health", pulse_result), ("cgm_stelo", glucose_result)],
           [⟨"apple_health", pulse_result.data, none⟩,
            ⟨"cgm_stelo", glucose_result.data, none⟩]) with
      | error msg => rw [hpl, exceptBindErr] at hq; exact Except.noConfusion hq
      | ok st =>
          obtain ⟨ar, obsL⟩ := st
          rw [hpl, exceptBindOk] at hq
          dsimp only at hq
          cases hin : infer symptom [hm, hd] obsL
              (apply_hallucination_guard ar) with
          | error msg => rw [hin, exceptBindErr] at hq; exact Except.noConfusion hq
          | ok expl =>
              rw [hin, exceptBindOk] at hq
              have h' : Except.ok (ε := String)
                  (expl, allPhases) = Except.ok (e, phases) := hq
              injection h' with h''
              have he : expl = e := congrArg Prod.fst h''
              rw [← he]
              have hnod : ∀ o ∈ obsL,
                  o.supports_hypothesis ≠ some "digital" := by
                have := probeLoop_no_digital [hm, hd] roti_result insta_result
                  MAX_ITERATIONS _ (ar, obsL) ?_ hpl
                · exact this
                · intro o ho
                  rcases List.mem_cons.mp ho with ho | ho
                  · rw [ho]; simp
                  · rw [List.mem_singleton.mp ho]; simp
              rw [infer_conclusion_eq symptom [hm, hd] obsL
                    (apply_hallucination_guard ar) expl hin,
                  inferScores_pair hm hd obsL _ hmt hdt]
              refine inferConclusion_metabolic _ _ ?_
              rw [no_digital_count obsL _ hnod]
              have hk : (0 : ℚ) ≤
                  ((obsL.filter (obsCounts (apply_hallucination_guard ar)
                    "metabolic")).length : ℚ) := by positivity
              simp only [List.length_nil, Nat.cast_zero, mul_zero, add_zero]
              nlinarith [hple, hk]


/-- Witness for C10 at a concrete safe input (HRV 55 ms, glucose 150,
no probe data): the query completes and concludes `"metabolic"`. -/
theorem query_conclusion_c10_witness :
    ∃ (e : CausalExplanation) (phases : List String),
      query "fatigue" ⟨some [("hrv_ms", .num 55)], "apple_health"⟩
          ⟨some [("value_mg_dl", .num 150)], "cgm_stelo"⟩
          ⟨none, "rotimatic_server"⟩ ⟨none, "instacart_server"⟩ false
        = .ok (e, phases) ∧ e.conclusion = some "metabolic" := by
  have hq : query "fatigue" ⟨some [("hrv_ms", .num 55)], "apple_health"⟩
      ⟨some [("value_mg_dl", .num 150)], "cgm_stelo"⟩
      ⟨none, "rotimatic_server"⟩ ⟨none, "instacart_server"⟩ false
    = .ok ({ symptom := "fatigue",
             conclusion := some "metabolic",
             confidence := 667/1000,
             causal_chain :=
               [⟨"meal", "glucose", "meal_to_glucose"⟩,
                ⟨"glucose", "physiological", "glucose_to_hrv"⟩],
             narrative := "Investigating symptom: \"fatigue\". Data from: apple_health, cgm_stelo. No data from: rotimatic_server, instacart_server (excluded from reasoning). Evidence points to a metabolic pathway: meal composition affecting glucose response, which in turn impacts physiological markers. Confidence: 67%.",
             metabolic_debt := none,
             digital_debt := none,
             counterfactuals := ["Eating earlier in the evening (before 8 PM) would remove the late-meal timing penalty"],
             safety_bypass := false,
             escalation_triggered := false },
           ["pulse", "hypothesis", "probe", "inference"]) := by
    with_unfolding_all rfl
  exact ⟨_, _, hq,
    query_conclusion_c10 "fatigue" ⟨some [("hrv_ms", .num 55)], "apple_health"⟩
      ⟨some [("value_mg_dl", .num 150)], "cgm_stelo"⟩
      ⟨none, "rotimatic_server"⟩ ⟨none, "instacart_server"⟩ false
      ⟨true, some 55, none⟩ rfl rfl _ _ hq⟩


/-- Witness for C1: with HRV 15.0 ms and arbitrary other evidence, the
query returns the safety-bypass explanation after the PULSE phase. -/
theorem query_safety_bypass_c1_witness :
    ∃ e, query "dizzy" ⟨some [("hrv_ms", .num 15)], "apple_health"⟩
        ⟨some [("value_mg_dl", .num 150)], "cgm_stelo"⟩
        ⟨none, "rotimatic_server"⟩ ⟨none, "instacart_server"⟩ false
        = .ok (e, ["pulse"]) ∧
      e.safety_bypass = true ∧ e.confidence = 1 ∧ e.conclusion = none ∧
      e.causal_chain = [] ∧ e.narrative = restInterventionNarrative ∧
      e.narrative ≠ "" :=
  query_safety_bypass_c1 "dizzy" ⟨some [("hrv_ms", .num 15)], "apple_health"⟩
    ⟨some [("value_mg_dl", .num 150)], "cgm_stelo"⟩
    ⟨none, "rotimatic_server"⟩ ⟨none, "instacart_server"⟩ false
    ⟨false, some 15, some hrvEscalationReason⟩ rfl rfl


/-- The one-step unfolding of `dfs`. -/
lemma dfs_eq (g : CausalDAG) (t : String) (fuel : Nat) (cur : String)
    (path : List DAGEdge) (visited : List String) (d : Nat) :
    dfs g t fuel cur path visited d =
      if path.length > d then []
      else if cur = t then (if path.isEmpty then [] else [path])
      else
        match fuel with
        | 0 => []
        | fuel' + 1 =>
            (g.neighbors cur).flatMap (fun e =>
              if e.target ∈ cur :: visited then []
              else dfs g t fuel' e.target (path ++ [e])
                     (cur :: visited) d) := by
  cases fuel with
  | zero => rfl
  | succ fuel' => rfl


/-- A non-empty edge chain to `t` passes through `t`. -/
lemma isEdgePath_target_mem (g : CausalDAG) :
    ∀ (ext : List DAGEdge) (c t : String),
      isEdgePath g c ext t → ext ≠ [] → t ∈ ext.map (·.target) := by
  intro ext
  induction ext with
  | nil => intro c t _ h; exact absurd rfl h
  | cons e rest ih =>
      intro c t h _
      obtain ⟨_, hrest⟩ := h
      by_cases hr : rest = []
      · subst hr
        have : e.target = t := hrest
        simp [this]
      · have := ih e.target t hrest hr
        simp only [List.map_cons, List.mem_cons]
        exact Or.inr this


/-- The DFS membership characterization, by induction on the fuel. -/
lemma dfs_mem (g : CausalDAG) (t : String) :
    ∀ (fuel : Nat) (cur : String) (path : List DAGEdge)
      (visited : List String) (d : Nat) (q : List DAGEdge),
      d + 1 ≤ fuel + path.length →
      (q ∈ dfs g t fuel cur path visited d ↔
        dfsSpec g t cur path visited d q) := by
  intro fuel
  induction fuel with
  | zero =>
      intro cur path visited d q hle
      have hgt : path.length > d := by omega
      rw [dfs_eq, if_pos hgt]
      simp only [List.not_mem_nil, false_iff]
      unfold dfsSpec
      split_ifs with hct
      · rintro ⟨_, _, hlen⟩; omega
      · rintro ⟨ext, _, hne, _, _, _, hlen⟩; omega
  | succ fuel ih =>
      intro cur path visited d q hle
      rw [dfs_eq]
      by_cases hgt : path.length > d
      · rw [if_pos hgt]
        simp only [List.not_mem_nil, false_iff]
        unfold dfsSpec
        split_ifs with hct
        · rintro ⟨_, _, hlen⟩; omega
        · rintro ⟨ext, _, hne, _, _, _, hlen⟩; omega
      · rw [if_neg hgt]
        by_cases hct : cur = t
        · rw [if_pos hct]
          unfold dfsSpec
          rw [if_pos hct]
          by_cases hpe : path.isEmpty
          · rw [if_pos hpe]
            simp only [List.not_mem_nil, false_iff]
            rintro ⟨_, hne, _⟩
            exact hne (List.isEmpty_iff.mp hpe)
          · rw [if_neg hpe]
            simp only [List.mem_singleton]
            constructor
            · intro hq
              refine ⟨hq, fun h => ?_, by omega⟩
              rw [h] at hpe
              exact hpe rfl
            · rintro ⟨hq, _, _⟩; exact hq
        · rw [if_neg hct]
          unfold dfsSpec
          rw [if_neg hct]
          rw [List.mem_flatMap]
          constructor
          · rintro ⟨e, he, hq⟩
            by_cases hnv : e.target ∈ cur :: visited
            · rw [if_pos hnv] at hq
              exact absurd hq (List.not_mem_nil q)
            · rw [if_neg hnv] at hq
              have hih := (ih e.target (path ++ [e]) (cur :: visited) d q
                (by simp only [List.length_append, List.length_singleton]; omega)).mp hq
              unfold dfsSpec at hih
              by_cases htt : e.target = t
              · rw [if_pos htt] at hih
                obtain ⟨hq', _, hlen'⟩ := hih
                refine ⟨[e], hq', by simp, ⟨he, htt⟩, by simp, ?_, ?_⟩
                · intro x hx
                  simp only [List.map_cons, List.map_nil,
                    List.mem_singleton] at hx
                  rw [hx]; exact hnv
                · simp only [List.length_append, List.length_singleton] at hlen'
                  simpa using hlen'
              · rw [if_neg htt] at hih
                obtain ⟨rest, hq', hne', hp', hnd', hdisj', hlen'⟩ := hih
                refine ⟨e :: rest, ?_, by simp, ⟨he, hp'⟩, ?_, ?_, ?_⟩
                · rw [hq', List.append_assoc]; rfl
                · simp only [List.map_cons]
                  refine List.nodup_cons.mpr ⟨fun hmem => ?_, hnd'⟩
                  exact (hdisj' _ hmem) (List.mem_cons_self _ _)
                · intro x hx
                  simp only [List.map_cons, List.mem_cons] at hx
                  rcases hx with hx | hx
                  · rw [hx]; exact hnv
                  · intro hmem
                    exact (hdisj' x hx) (List.mem_cons_of_mem _ hmem)
                · simp only [List.length_append, List.length_singleton] at hlen'
                  simp only [List.length_cons]
                  omega
          · rintro ⟨ext, hq, hne, hp, hnd, hdisj, hlen⟩
            cases ext with
            | nil => exact absurd rfl hne
            | cons e rest =>
                obtain ⟨he, hrest⟩ := hp
                have hnv : e.target ∉ cur :: visited :=
                  hdisj e.target (by simp)
                refine ⟨e, he, ?_⟩
                rw [if_neg hnv]
                apply (ih e.target (path ++ [e]) (cur :: visited) d q
                  (by simp only [List.length_append, List.length_singleton]; omega)).mpr
                unfold dfsSpec
                simp only [List.map_cons] at hnd
                have hnd' := List.nodup_cons.mp hnd
                by_cases htt : e.target = t
                · rw [if_pos htt]
                  have hrest_nil : rest = [] := by
                    by_contra hrn
                    have hm := isEdgePath_target_mem g rest e.target t
                      hrest hrn
                    rw [← htt] at hm
                    exact hnd'.1 hm
                  subst hrest_nil
                  refine ⟨by simpa using hq, by simp, ?_⟩
                  simp only [List.length_append, List.length_singleton]
                  simp only [List.length_cons, List.length_nil] at hlen
                  omega
                · rw [if_neg htt]
                  refine ⟨rest, ?_, ?_, hrest, hnd'.2, ?_, ?_⟩
                  · rw [hq, List.append_assoc]; rfl
                  · intro hrn
                    rw [hrn] at hrest
                    exact htt hrest
                  · intro x hx
                    intro hmem
                    rcases List.mem_cons.mp hmem with hxe | hmem'
                    · exact hnd'.1 (hxe ▸ hx)
                    · have hxin : x ∈ List.map (fun y => y.target) (e :: rest) := by
                        simp only [List.map_cons, List.mem_cons]
                        exact Or.inr hx
                      exact (hdisj x hxin) hmem'
                  · simp only [List.length_append, List.length_singleton]
                    simp only [List.length_cons] at hlen
                    omega


/-- C9: `trace_paths(source, target, max_depth)` returns exactly the
non-empty simple paths (no node repeated) from `source` to `target` of at
most `max_depth` edges; in the two-edge example DAG it returns exactly
the one 2-edge path, and the empty list for an unreachable target. -/
theorem trace_paths_c9 :
    (∀ (g : CausalDAG) (s t : String) (d : Nat) (q : List DAGEdge),
      q ∈ g.trace_paths s t d ↔
        q ≠ [] ∧ isEdgePath g s q t ∧ (pathNodes s q).Nodup ∧
          q.length ≤ d) ∧
    dagC9.trace_paths "meal_a" "physio_c" 6 = [[edgeMG, edgeGP]] ∧
    dagC9.trace_paths "meal_a" "symptom_z" 6 = [] := by
  refine ⟨?_, rfl, rfl⟩
  intro g s t d q
  unfold CausalDAG.trace_paths
  rw [dfs_mem g t (d + 1) s [] [] d q (by omega)]
  unfold dfsSpec
  by_cases hst : s = t
  · rw [if_pos hst]
    simp only [List.length_nil]
    constructor
    · rintro ⟨_, hne, _⟩; exact absurd rfl hne
    · rintro ⟨hne, hp, hnd, _⟩
      have hm := isEdgePath_target_mem g q s t hp hne
      rw [← hst] at hm
      unfold pathNodes at hnd
      exact absurd hm (List.nodup_cons.mp hnd).1
  · rw [if_neg hst]
    constructor
    · rintro ⟨ext, hq, hne, hp, hnd, hdisj, hlen⟩
      subst hq
      simp only [List.nil_append] at *
      refine ⟨hne, hp, ?_, by omega⟩
      unfold pathNodes
      refine List.nodup_cons.mpr ⟨fun hmem => ?_, hnd⟩
      exact (hdisj s hmem) (List.mem_cons_self _ _)
    · rintro ⟨hne, hp, hnd, hlen⟩
      unfold pathNodes at hnd
      have hnd' := List.nodup_cons.mp hnd
      refine ⟨q, by simp, hne, hp, hnd'.2, ?_, by simpa using hlen⟩
      intro x hx
      intro hmem
      rcases List.mem_cons.mp hmem with hxe | hmem'
      · exact hnd'.1 (hxe ▸ hx)
      · exact absurd hmem' (List.not_mem_nil x)

end Vita
